import Mathlib

/-!
Verification of the image-to-icon-container pipeline of the PWA icon
generator (src/App.tsx).

The pipeline's algorithmic core, `generateIcoBlob`, is embedded shallowly:
byte buffers are `List Nat` (each element a byte value 0..255), the
`DataView.setUintN(offset, v, littleEndian)` writes of the source become
little-endian byte lists (`le16`, `le32`, with the explicit `% 256` /
`% 2^32` wrapping that `DataView` performs), and the source's two loops
(directory rows written at `entryOffset` with running `fileOffset`, then
image payloads copied at running `dataOffset`) become the concatenation
`header ++ directory ++ imageData`, which is byte-for-byte the content the
source writes into its preallocated `ArrayBuffer`.
-/

namespace PwaGen

/-- The fixed descending candidate list of `generateIcoBlob`
(`const standardSizes = [256, 128, 64, 48, 32, 16]`). -/
def standardSizes : List Nat := [256, 128, 64, 48, 32, 16]

/-- Wrapping of `DataView.setUint8`: the stored byte is the value mod 256. -/
def u8 (v : Nat) : Nat := v % 256

/-- Little-endian bytes of `DataView.setUint16(_, v, true)`. -/
def le16 (v : Nat) : List Nat := [v % 256, v / 256 % 256]

/-- Little-endian bytes of `DataView.setUint32(_, v, true)`. -/
def le32 (v : Nat) : List Nat :=
  [v % 256, v / 256 % 256, v / 65536 % 256, v / 16777216 % 256]

/-- One element of the source's `imageEntries` array:
`{ size: number; buffer: ArrayBuffer }`. -/
structure ImageEntry where
  size : Nat
  buffer : List Nat
deriving Repr, DecidableEq

instance : Inhabited ImageEntry := ⟨⟨0, []⟩⟩

/-- `const displaySize = entry.size === 256 ? 0 : entry.size` (App.tsx line 236). -/
def displaySize (s : Nat) : Nat := if s = 256 then 0 else s

/-- One 16-byte directory row, exactly the eight `DataView` writes of the
source's directory loop (App.tsx lines 235-247): width byte, height byte,
palette count 0, reserved 0, color planes uint16 0, bits-per-pixel
uint16 0, data length uint32, file offset uint32. -/
def dirEntry (e : ImageEntry) (fileOffset : Nat) : List Nat :=
  [u8 (displaySize e.size), u8 (displaySize e.size), u8 0, u8 0]
    ++ le16 0 ++ le16 0 ++ le32 e.buffer.length ++ le32 fileOffset

/-- The source's directory loop: one `dirEntry` row per image entry, with
`fileOffset` advanced by each entry's buffer length
(`fileOffset += entry.buffer.byteLength`). -/
def mkDirectory : List ImageEntry → Nat → List Nat
  | [], _ => []
  | e :: rest, fileOffset => dirEntry e fileOffset ++ mkDirectory rest (fileOffset + e.buffer.length)

/-- Error message thrown when `img.width < 16 || img.height < 16`. -/
def imageTooSmallMsg : String :=
  "Image too small. Please use an image that is at least 16x16 pixels."

/-- Error message thrown when `sizes.length === 0`. -/
def noEligibleSizesMsg : String :=
  "Could not determine appropriate icon sizes for the given image."

/-- Error message set by `handleFileSelect` for a non-PNG file type. -/
def invalidFileTypeMsg : String := "Invalid file type. Please upload a PNG file."

/-- The source's local `sizes`:
`standardSizes.filter(s => s <= img.width && s <= img.height)`. -/
def eligibleSizes (w h : Nat) : List Nat :=
  standardSizes.filter fun s => decide (s ≤ w ∧ s ≤ h)

/-- The 6-byte ICONDIR header: reserved uint16 0, type uint16 1,
image count uint16 (App.tsx lines 230-232). -/
def icoHeader (n : Nat) : List Nat := le16 0 ++ le16 1 ++ le16 n

/-- The full container written into `finalBuffer`: header, then the
16-byte-per-entry directory starting with `fileOffset` at
`headerSize + directorySize = 6 + 16 * N`, then the concatenated PNG
payloads in the same order. -/
def icoBytes (es : List ImageEntry) : List Nat :=
  icoHeader es.length ++ mkDirectory es (6 + 16 * es.length)
    ++ (es.map ImageEntry.buffer).flatten

/-- `generateIcoBlob` (App.tsx lines 195-258). `png s` stands for the bytes
of the PNG blob the canvas collaborator returns for target size `s`
(`generatePngBlob(img, size)` followed by `blob.arrayBuffer()`); the byte
assembly is exactly the source's. -/
def generateIcoBlob (png : Nat → List Nat) (w h : Nat) : Except String (List Nat) :=
  if w < 16 ∨ h < 16 then
    Except.error imageTooSmallMsg
  else
    let sizes := eligibleSizes w h
    if sizes.length = 0 then
      Except.error noEligibleSizesMsg
    else
      Except.ok (icoBytes (sizes.map fun s => ImageEntry.mk s (png s)))

/-- Reading one byte of a produced buffer; positions past the end read 0
(they never occur in the theorems below). -/
def byteAt (buf : List Nat) (i : Nat) : Nat := buf.getD i 0

/-- Little-endian uint16 read. -/
def readU16 (buf : List Nat) (off : Nat) : Nat :=
  byteAt buf off + 256 * byteAt buf (off + 1)

/-- Little-endian uint32 read. -/
def readU32 (buf : List Nat) (off : Nat) : Nat :=
  byteAt buf off + 256 * byteAt buf (off + 1) + 65536 * byteAt buf (off + 2)
    + 16777216 * byteAt buf (off + 3)

/-- A parsed 16-byte directory row of an icon container. -/
structure IcoDirEntry where
  widthByte : Nat
  heightByte : Nat
  paletteCount : Nat
  reservedByte : Nat
  colorPlanes : Nat
  bitsPerPixel : Nat
  dataSize : Nat
  dataOffset : Nat
deriving Repr, DecidableEq

instance : Inhabited IcoDirEntry := ⟨⟨0, 0, 0, 0, 0, 0, 0, 0⟩⟩

/-- Parse the 16-byte directory row at byte offset `off`. -/
def parseEntry (buf : List Nat) (off : Nat) : IcoDirEntry where
  widthByte := byteAt buf off
  heightByte := byteAt buf (off + 1)
  paletteCount := byteAt buf (off + 2)
  reservedByte := byteAt buf (off + 3)
  colorPlanes := readU16 buf (off + 4)
  bitsPerPixel := readU16 buf (off + 6)
  dataSize := readU32 buf (off + 8)
  dataOffset := readU32 buf (off + 12)

/-- Parse an icon container: read `imageCount` from the header, then the
16-byte directory rows that follow the 6-byte header. -/
def parseDirectory (buf : List Nat) : List IcoDirEntry :=
  (List.range (readU16 buf 4)).map fun i => parseEntry buf (6 + 16 * i)

/-- The ICO convention for decoding a single-byte dimension: byte 0 means 256. -/
def decodeSizeByte (b : Nat) : Nat := if b = 0 then 256 else b

/-- Sum of the buffer lengths of the first `i` image entries: the distance
from the start of the image-data region to entry `i`'s payload. -/
def prefixLen (es : List ImageEntry) (i : Nat) : Nat :=
  ((es.take i).map fun e => e.buffer.length).sum

/-- Total container size: `headerSize + directorySize + Σ byteLength`
(App.tsx lines 221-224). -/
def totalLen (es : List ImageEntry) : Nat :=
  6 + 16 * es.length + (es.map fun e => e.buffer.length).sum

/-- The image entries built for source dimensions `w × h`. -/
def icoEntries (png : Nat → List Nat) (w h : Nat) : List ImageEntry :=
  (eligibleSizes w h).map fun s => ImageEntry.mk s (png s)

/-- A decoded source raster as the pipeline sees it: an `HTMLImageElement`
with its natural pixel dimensions. -/
structure SourceImage where
  width : Nat
  height : Nat
deriving Repr, DecidableEq

/-- A square PNG raster produced by the resample-and-encode step. -/
structure RasterPng where
  width : Nat
  height : Nat
  bytes : List Nat
deriving Repr, DecidableEq

/-- The error category of spec §4.2 for a non-positive requested size. -/
def invalidDimensionMsg : String := "InvalidDimension"

/-- Modelled from the spec: the browser canvas collaborator used by
`generatePngBlob` (App.tsx lines 176-193: `document.createElement`, the 2D
context, `drawImage`, `canvas.toBlob`) is not part of this repository's
source, so its behaviour is taken from spec §4.2: the resample-and-encode
operation yields a square raster of the requested dimension for every
positive size and fails with `InvalidDimension` for a non-positive size.
What remains from the source is kept faithfully: the canvas is created
with `width = size` and `height = size` and the source raster is drawn
onto the full destination rectangle `(0, 0, size, size)` — `draw img dw dh`
abstracts the interpolate-and-PNG-encode collaborator applied to that
rectangle, never consulting the source's aspect ratio. -/
def generatePngBlob (draw : SourceImage → Nat → Nat → List Nat) (img : SourceImage)
    (size : Int) : Except String RasterPng :=
  if size ≤ 0 then Except.error invalidDimensionMsg
  else Except.ok ⟨size.toNat, size.toNat, draw img size.toNat size.toNat⟩

/-- The outcome of `handleFileSelect`: either the eager rejection branch
(which sets the error message and returns before `handleConvert` runs) or
the conversion pipeline's result. -/
inductive SelectOutcome (α : Type) where
  | rejected (msg : String)
  | converted (result : α)
deriving Repr

/-- The selected file as `handleFileSelect` sees it: the declared MIME
type of the browser `File` object. -/
structure FileInput where
  type : String
deriving Repr, DecidableEq

/-- `handleFileSelect` (App.tsx lines 143-159): a file whose declared type
is not image/png is rejected with the validation error and the function
returns before `handleConvert` is invoked; `convert` abstracts the whole
`handleConvert` pipeline (decode, resample, encode, package). -/
def handleFileSelect {α : Type} (convert : FileInput → α) (file : FileInput) :
    SelectOutcome α :=
  if file.type ≠ "image/png" then SelectOutcome.rejected invalidFileTypeMsg
  else SelectOutcome.converted (convert file)

lemma dirEntry_length (e : ImageEntry) (off : Nat) : (dirEntry e off).length = 16 := rfl

lemma icoHeader_length (n : Nat) : (icoHeader n).length = 6 := rfl

lemma mkDirectory_length : ∀ (es : List ImageEntry) (off : Nat),
    (mkDirectory es off).length = 16 * es.length := by
  intro es
  induction es with
  | nil => intro off; rfl
  | cons e rest ih =>
    intro off
    simp only [mkDirectory, List.length_append, dirEntry_length, ih, List.length_cons]
    omega

lemma byteAt_append_left {a : List Nat} (b : List Nat) {i : Nat} (h : i < a.length) :
    byteAt (a ++ b) i = byteAt a i :=
  List.getD_append a b 0 i h

lemma byteAt_append_right (a b : List Nat) (k : Nat) :
    byteAt (a ++ b) (a.length + k) = byteAt b k := by
  simp [byteAt, List.getD_eq_getElem?_getD, List.getElem?_append_right]

lemma prefixLen_zero (es : List ImageEntry) : prefixLen es 0 = 0 := rfl

lemma prefixLen_cons_succ (e : ImageEntry) (rest : List ImageEntry) (i : Nat) :
    prefixLen (e :: rest) (i + 1) = e.buffer.length + prefixLen rest i := by
  simp [prefixLen]

lemma mkDirectory_byteAt : ∀ (es : List ImageEntry) (off i j : Nat),
    i < es.length → j < 16 →
    byteAt (mkDirectory es off) (16 * i + j)
      = byteAt (dirEntry (es.getD i default) (off + prefixLen es i)) j := by
  intro es
  induction es with
  | nil => intro off i j hi _; simp at hi
  | cons e rest ih =>
    intro off i j hi hj
    cases i with
    | zero =>
      simp only [mkDirectory, Nat.mul_zero, Nat.zero_add, List.getD_cons_zero, prefixLen_zero,
        Nat.add_zero]
      exact byteAt_append_left _ (by rw [dirEntry_length]; omega)
    | succ i' =>
      have harith : 16 * (i' + 1) + j = (dirEntry e off).length + (16 * i' + j) := by
        rw [dirEntry_length]; omega
      simp only [mkDirectory]
      rw [harith, byteAt_append_right, ih (off + e.buffer.length) i' j (by simpa using hi) hj,
        List.getD_cons_succ, prefixLen_cons_succ]
      congr 2
      omega

lemma flatten_slice : ∀ (es : List ImageEntry) (i : Nat), i < es.length →
    (((es.map ImageEntry.buffer).flatten).drop (prefixLen es i)).take
        (es.getD i default).buffer.length
      = (es.getD i default).buffer := by
  intro es
  induction es with
  | nil => intro i hi; simp at hi
  | cons e rest ih =>
    intro i hi
    cases i with
    | zero =>
      simp only [List.map_cons, List.flatten_cons, prefixLen_zero, List.drop_zero,
        List.getD_cons_zero]
      exact List.take_left e.buffer _
    | succ i' =>
      simp only [List.map_cons, List.flatten_cons, prefixLen_cons_succ, List.getD_cons_succ]
      rw [← List.drop_drop, List.drop_left]
      exact ih i' (by simpa using hi)

lemma prefixLen_le_sum (es : List ImageEntry) (i : Nat) :
    prefixLen es i ≤ (es.map fun e => e.buffer.length).sum := by
  conv_rhs => rw [← List.take_append_drop i es]
  rw [List.map_append, List.sum_append]
  exact Nat.le_add_right _ _

lemma getD_buffer_le_sum (es : List ImageEntry) (i : Nat) (hi : i < es.length) :
    (es.getD i default).buffer.length ≤ (es.map fun e => e.buffer.length).sum := by
  apply List.single_le_sum (by intro x _; exact Nat.zero_le x)
  refine List.mem_map.mpr ⟨es.getD i default, ?_, rfl⟩
  rw [List.getD_eq_getElem es default hi]
  exact List.getElem_mem hi

lemma icoBytes_length (es : List ImageEntry) : (icoBytes es).length = totalLen es := by
  simp only [icoBytes, List.length_append, icoHeader_length, mkDirectory_length,
    List.length_flatten, List.map_map, Function.comp_def, totalLen]

lemma dirEntry_byte0 (e : ImageEntry) (off : Nat) :
    byteAt (dirEntry e off) 0 = u8 (displaySize e.size) := rfl

lemma dirEntry_byte1 (e : ImageEntry) (off : Nat) :
    byteAt (dirEntry e off) 1 = u8 (displaySize e.size) := rfl

lemma dirEntry_byte2 (e : ImageEntry) (off : Nat) : byteAt (dirEntry e off) 2 = 0 := rfl

lemma dirEntry_byte3 (e : ImageEntry) (off : Nat) : byteAt (dirEntry e off) 3 = 0 := rfl

lemma dirEntry_byte4 (e : ImageEntry) (off : Nat) : byteAt (dirEntry e off) 4 = 0 := rfl

lemma dirEntry_byte5 (e : ImageEntry) (off : Nat) : byteAt (dirEntry e off) 5 = 0 := rfl

lemma dirEntry_byte6 (e : ImageEntry) (off : Nat) : byteAt (dirEntry e off) 6 = 0 := rfl

lemma dirEntry_byte7 (e : ImageEntry) (off : Nat) : byteAt (dirEntry e off) 7 = 0 := rfl

lemma dirEntry_byte8 (e : ImageEntry) (off : Nat) :
    byteAt (dirEntry e off) 8 = e.buffer.length % 256 := rfl

lemma dirEntry_byte9 (e : ImageEntry) (off : Nat) :
    byteAt (dirEntry e off) 9 = e.buffer.length / 256 % 256 := rfl

lemma dirEntry_byte10 (e : ImageEntry) (off : Nat) :
    byteAt (dirEntry e off) 10 = e.buffer.length / 65536 % 256 := rfl

lemma dirEntry_byte11 (e : ImageEntry) (off : Nat) :
    byteAt (dirEntry e off) 11 = e.buffer.length / 16777216 % 256 := rfl

lemma dirEntry_byte12 (e : ImageEntry) (off : Nat) :
    byteAt (dirEntry e off) 12 = off % 256 := rfl

lemma dirEntry_byte13 (e : ImageEntry) (off : Nat) :
    byteAt (dirEntry e off) 13 = off / 256 % 256 := rfl

lemma dirEntry_byte14 (e : ImageEntry) (off : Nat) :
    byteAt (dirEntry e off) 14 = off / 65536 % 256 := rfl

lemma dirEntry_byte15 (e : ImageEntry) (off : Nat) :
    byteAt (dirEntry e off) 15 = off / 16777216 % 256 := rfl

/-- The directory row the container should carry for entry `i`: width and
height bytes from `displaySize`, zero planes and bit depth, the payload
length and the cumulative offset (both wrapped as uint32, as `DataView`
stores them). -/
def specEntry (es : List ImageEntry) (i : Nat) : IcoDirEntry :=
  ⟨u8 (displaySize (es.getD i default).size), u8 (displaySize (es.getD i default).size),
   0, 0, 0, 0,
   (es.getD i default).buffer.length % 4294967296,
   (6 + 16 * es.length + prefixLen es i) % 4294967296⟩

lemma byteAt_icoBytes_dir (es : List ImageEntry) (i j : Nat) (hi : i < es.length)
    (hj : j < 16) :
    byteAt (icoBytes es) (6 + 16 * i + j)
      = byteAt (dirEntry (es.getD i default) (6 + 16 * es.length + prefixLen es i)) j := by
  have hsplit : icoBytes es
      = icoHeader es.length ++ (mkDirectory es (6 + 16 * es.length)
          ++ (es.map ImageEntry.buffer).flatten) := by
    simp [icoBytes]
  have hidx : 6 + 16 * i + j = (icoHeader es.length).length + (16 * i + j) := by
    rw [icoHeader_length]; omega
  rw [hsplit, hidx, byteAt_append_right,
    byteAt_append_left _ (by rw [mkDirectory_length]; omega),
    mkDirectory_byteAt es (6 + 16 * es.length) i j hi hj]

lemma parseEntry_icoBytes (es : List ImageEntry) (i : Nat) (hi : i < es.length) :
    parseEntry (icoBytes es) (6 + 16 * i) = specEntry es i := by
  have hb : ∀ k j : Nat, j < 16 → k = 6 + 16 * i + j →
      byteAt (icoBytes es) k
        = byteAt (dirEntry (es.getD i default) (6 + 16 * es.length + prefixLen es i)) j := by
    intro k j hj hk
    rw [hk]; exact byteAt_icoBytes_dir es i j hi hj
  simp only [parseEntry, readU16, readU32, specEntry]
  rw [hb (6 + 16 * i) 0 (by omega) (by omega),
    hb (6 + 16 * i + 1) 1 (by omega) (by omega),
    hb (6 + 16 * i + 2) 2 (by omega) (by omega),
    hb (6 + 16 * i + 3) 3 (by omega) (by omega),
    hb (6 + 16 * i + 4) 4 (by omega) (by omega),
    hb (6 + 16 * i + 4 + 1) 5 (by omega) (by omega),
    hb (6 + 16 * i + 6) 6 (by omega) (by omega),
    hb (6 + 16 * i + 6 + 1) 7 (by omega) (by omega),
    hb (6 + 16 * i + 8) 8 (by omega) (by omega),
    hb (6 + 16 * i + 8 + 1) 9 (by omega) (by omega),
    hb (6 + 16 * i + 8 + 2) 10 (by omega) (by omega),
    hb (6 + 16 * i + 8 + 3) 11 (by omega) (by omega),
    hb (6 + 16 * i + 12) 12 (by omega) (by omega),
    hb (6 + 16 * i + 12 + 1) 13 (by omega) (by omega),
    hb (6 + 16 * i + 12 + 2) 14 (by omega) (by omega),
    hb (6 + 16 * i + 12 + 3) 15 (by omega) (by omega),
    dirEntry_byte0, dirEntry_byte1, dirEntry_byte2, dirEntry_byte3, dirEntry_byte4,
    dirEntry_byte5, dirEntry_byte6, dirEntry_byte7, dirEntry_byte8, dirEntry_byte9,
    dirEntry_byte10, dirEntry_byte11, dirEntry_byte12, dirEntry_byte13, dirEntry_byte14,
    dirEntry_byte15]
  congr 1 <;> omega

lemma readU16_icoBytes_count (es : List ImageEntry) (hn : es.length < 65536) :
    readU16 (icoBytes es) 4 = es.length := by
  have h4 : byteAt (icoBytes es) 4 = es.length % 256 := by
    rw [icoBytes, List.append_assoc, byteAt_append_left _ (by rw [icoHeader_length]; omega)]
    rfl
  have h5 : byteAt (icoBytes es) (4 + 1) = es.length / 256 % 256 := by
    rw [icoBytes, List.append_assoc, byteAt_append_left _ (by rw [icoHeader_length]; omega)]
    rfl
  rw [readU16, h4, h5]
  omega

lemma parseDirectory_icoBytes (es : List ImageEntry) (hn : es.length < 65536) :
    parseDirectory (icoBytes es) = (List.range es.length).map (specEntry es) := by
  rw [parseDirectory, readU16_icoBytes_count es hn]
  refine List.map_congr_left ?_
  intro i hi
  exact parseEntry_icoBytes es i (List.mem_range.mp hi)

lemma parseDirectory_icoBytes_length (es : List ImageEntry) (hn : es.length < 65536) :
    (parseDirectory (icoBytes es)).length = es.length := by
  rw [parseDirectory_icoBytes es hn, List.length_map, List.length_range]

lemma parseDirectory_icoBytes_getD (es : List ImageEntry) (hn : es.length < 65536)
    (i : Nat) (hi : i < es.length) :
    (parseDirectory (icoBytes es)).getD i default = specEntry es i := by
  rw [parseDirectory_icoBytes es hn,
    List.getD_eq_getElem _ _ (by simpa using hi), List.getElem_map]
  congr 1
  exact List.getElem_range i _

lemma eligibleSizes_subset_standard (w h : Nat) {s : Nat} (hs : s ∈ eligibleSizes w h) :
    s ∈ standardSizes :=
  (List.filter_sublist standardSizes).subset hs

lemma sixteen_mem_eligibleSizes {w h : Nat} (hw : 16 ≤ w) (hh : 16 ≤ h) :
    16 ∈ eligibleSizes w h := by
  refine List.mem_filter.mpr ⟨by decide, ?_⟩
  simpa using ⟨hw, hh⟩

lemma eligibleSizes_ne_nil {w h : Nat} (hw : 16 ≤ w) (hh : 16 ≤ h) :
    eligibleSizes w h ≠ [] :=
  List.ne_nil_of_mem (sixteen_mem_eligibleSizes hw hh)

lemma eligibleSizes_length_le (w h : Nat) : (eligibleSizes w h).length ≤ 6 :=
  List.length_filter_le _ standardSizes

lemma icoEntries_length (png : Nat → List Nat) (w h : Nat) :
    (icoEntries png w h).length = (eligibleSizes w h).length := by
  simp [icoEntries]

lemma icoEntries_getD (png : Nat → List Nat) (w h i : Nat)
    (hi : i < (eligibleSizes w h).length) :
    (icoEntries png w h).getD i default
      = ImageEntry.mk ((eligibleSizes w h).getD i 0) (png ((eligibleSizes w h).getD i 0)) := by
  rw [icoEntries, List.getD_eq_getElem _ _ (by simpa using hi), List.getElem_map,
    List.getD_eq_getElem _ _ hi]

lemma generateIcoBlob_ok (png : Nat → List Nat) (w h : Nat) (hw : 16 ≤ w) (hh : 16 ≤ h) :
    generateIcoBlob png w h = Except.ok (icoBytes (icoEntries png w h)) := by
  unfold generateIcoBlob
  rw [if_neg (by omega), if_neg]
  · rfl
  · intro hlen
    exact eligibleSizes_ne_nil hw hh (List.eq_nil_of_length_eq_zero hlen)

lemma generateIcoBlob_small (png : Nat → List Nat) (w h : Nat) (hsm : w < 16 ∨ h < 16) :
    generateIcoBlob png w h = Except.error imageTooSmallMsg := by
  unfold generateIcoBlob
  rw [if_pos hsm]

lemma u8_displaySize_of_mem {s : Nat} (hs : s ∈ standardSizes) :
    u8 (displaySize s) = if s = 256 then 0 else s := by
  fin_cases hs <;> rfl

lemma decodeSizeByte_u8_displaySize {s : Nat} (hs : s ∈ standardSizes) :
    decodeSizeByte (u8 (displaySize s)) = s := by
  fin_cases hs <;> rfl

lemma filter_isSuffix_of_antitone (p : Nat → Bool)
    (hmono : ∀ a b : Nat, b ≤ a → p a = true → p b = true) :
    ∀ l : List Nat, l.Pairwise (fun a b => b ≤ a) → List.IsSuffix (l.filter p) l := by
  intro l
  induction l with
  | nil => intro _; exact List.suffix_refl []
  | cons a l ih =>
    intro hpair
    rw [List.pairwise_cons] at hpair
    obtain ⟨hall, hpl⟩ := hpair
    rw [List.filter_cons]
    by_cases hpa : p a = true
    · rw [if_pos hpa, List.filter_eq_self.mpr fun b hb => hmono a b (hall b hb) hpa]
    · rw [if_neg hpa]
      exact (ih hpl).trans (List.suffix_cons a l)

lemma eligibleSizes_isSuffix (w h : Nat) :
    List.IsSuffix (eligibleSizes w h) standardSizes := by
  refine filter_isSuffix_of_antitone _ ?_ standardSizes (by decide)
  intro a b hba hpa
  simp only [decide_eq_true_eq] at hpa ⊢
  exact ⟨hba.trans hpa.1, hba.trans hpa.2⟩

lemma eligibleSizes_getLast? {w h : Nat} (hw : 16 ≤ w) (hh : 16 ≤ h) :
    (eligibleSizes w h).getLast? = some 16 := by
  obtain ⟨t, ht⟩ := eligibleSizes_isSuffix w h
  have hlast := @List.getLast?_append_of_ne_nil Nat t (eligibleSizes w h)
    (eligibleSizes_ne_nil hw hh)
  rw [ht] at hlast
  rw [← hlast]
  rfl

lemma eligibleSizes_pairwise_gt (w h : Nat) :
    (eligibleSizes w h).Pairwise (fun a b => a > b) :=
  List.Pairwise.sublist (List.filter_sublist standardSizes)
    (by decide : standardSizes.Pairwise (fun a b => a > b))

lemma readU16_icoBytes_0 (es : List ImageEntry) : readU16 (icoBytes es) 0 = 0 := by
  have h0 : byteAt (icoBytes es) 0 = 0 := by
    rw [icoBytes, List.append_assoc, byteAt_append_left _ (by rw [icoHeader_length]; omega)]
    rfl
  have h1 : byteAt (icoBytes es) (0 + 1) = 0 := by
    rw [icoBytes, List.append_assoc, byteAt_append_left _ (by rw [icoHeader_length]; omega)]
    rfl
  rw [readU16, h0, h1]

lemma readU16_icoBytes_2 (es : List ImageEntry) : readU16 (icoBytes es) 2 = 1 := by
  have h2 : byteAt (icoBytes es) 2 = 1 := by
    rw [icoBytes, List.append_assoc, byteAt_append_left _ (by rw [icoHeader_length]; omega)]
    rfl
  have h3 : byteAt (icoBytes es) (2 + 1) = 0 := by
    rw [icoBytes, List.append_assoc, byteAt_append_left _ (by rw [icoHeader_length]; omega)]
    rfl
  rw [readU16, h2, h3]

lemma icoEntries_length_lt (png : Nat → List Nat) (w h : Nat) :
    (icoEntries png w h).length < 65536 := by
  rw [icoEntries_length]
  have := eligibleSizes_length_le w h
  omega

lemma eligibleSizes_length_eq_card (w h : Nat) :
    (eligibleSizes w h).length
      = (Finset.filter (fun s => s ≤ w ∧ s ≤ h) ({256, 128, 64, 48, 32, 16} : Finset ℕ)).card := by
  classical
  rw [eligibleSizes,
    ← List.toFinset_card_of_nodup (List.Nodup.filter _ (by decide : standardSizes.Nodup)),
    List.toFinset_filter]
  have h1 : standardSizes.toFinset = ({256, 128, 64, 48, 32, 16} : Finset ℕ) := by decide
  have h2 : Finset.filter (fun a => decide (a ≤ w ∧ a ≤ h) = true) standardSizes.toFinset
      = Finset.filter (fun s => s ≤ w ∧ s ≤ h) standardSizes.toFinset :=
    Finset.filter_congr fun x _ => by simp
  rw [h2, h1]

/-- Claim C1: for every source image with width and height at least 16,
`generateIcoBlob` selects exactly the candidates of `[256,128,64,48,32,16]`
that are bounded by both dimensions, and the container's uint16
image-count field at byte offset 4 equals the cardinality of that set. -/
theorem claimC1_imageCount (png : Nat → List Nat) (w h : Nat) (hw : 16 ≤ w) (hh : 16 ≤ h) :
    ∃ buf, generateIcoBlob png w h = Except.ok buf ∧
      (icoEntries png w h).map ImageEntry.size
        = standardSizes.filter (fun s => decide (s ≤ w ∧ s ≤ h)) ∧
      readU16 buf 4
        = (Finset.filter (fun s => s ≤ w ∧ s ≤ h) ({256, 128, 64, 48, 32, 16} : Finset ℕ)).card := by
  refine ⟨_, generateIcoBlob_ok png w h hw hh, ?_, ?_⟩
  · simp [icoEntries, eligibleSizes, List.map_map, Function.comp_def]
  · rw [readU16_icoBytes_count _ (icoEntries_length_lt png w h), icoEntries_length,
      eligibleSizes_length_eq_card]

theorem claimC1_witness :
    ∃ buf, generateIcoBlob (fun _ => [1]) 300 300 = Except.ok buf ∧
      (icoEntries (fun _ => [1]) 300 300).map ImageEntry.size
        = standardSizes.filter (fun s => decide (s ≤ 300 ∧ s ≤ 300)) ∧
      readU16 buf 4
        = (Finset.filter (fun s => s ≤ 300 ∧ s ≤ 300)
            ({256, 128, 64, 48, 32, 16} : Finset ℕ)).card :=
  claimC1_imageCount (fun _ => [1]) 300 300 (by decide) (by decide)

/-- Claim C2: for every source image with width or height below 16,
`generateIcoBlob` fails with the ImageTooSmall error, no container is
produced, and the result does not depend on the resample-and-encode
collaborator at all (so no resampling is needed to reach the failure). -/
theorem claimC2_tooSmall (png : Nat → List Nat) (w h : Nat) (hsm : w < 16 ∨ h < 16) :
    generateIcoBlob png w h = Except.error imageTooSmallMsg ∧
      ∀ png' : Nat → List Nat, generateIcoBlob png' w h = Except.error imageTooSmallMsg :=
  ⟨generateIcoBlob_small png w h hsm, fun png' => generateIcoBlob_small png' w h hsm⟩

theorem claimC2_witness :
    generateIcoBlob (fun _ => [1]) 15 15 = Except.error imageTooSmallMsg ∧
      ∀ png' : Nat → List Nat, generateIcoBlob png' 15 15 = Except.error imageTooSmallMsg :=
  claimC2_tooSmall (fun _ => [1]) 15 15 (by decide)

/-- Claim C6: every produced container starts with the little-endian
uint16 values reserved = 0, imageType = 1 and imageCount = N, and its
total byte length is exactly `6 + 16 * N +` the sum of all entries' data
sizes. -/
theorem claimC6_header (png : Nat → List Nat) (w h : Nat) (hw : 16 ≤ w) (hh : 16 ≤ h) :
    ∃ buf, generateIcoBlob png w h = Except.ok buf ∧
      readU16 buf 0 = 0 ∧ readU16 buf 2 = 1 ∧
      readU16 buf 4 = (icoEntries png w h).length ∧
      buf.length = 6 + 16 * (icoEntries png w h).length
        + ((icoEntries png w h).map fun e => e.buffer.length).sum := by
  refine ⟨_, generateIcoBlob_ok png w h hw hh, readU16_icoBytes_0 _, readU16_icoBytes_2 _,
    readU16_icoBytes_count _ (icoEntries_length_lt png w h), ?_⟩
  rw [icoBytes_length]
  rfl

theorem claimC6_witness :
    ∃ buf, generateIcoBlob (fun s => [s % 256, 0]) 64 48 = Except.ok buf ∧
      readU16 buf 0 = 0 ∧ readU16 buf 2 = 1 ∧
      readU16 buf 4 = (icoEntries (fun s => [s % 256, 0]) 64 48).length ∧
      buf.length = 6 + 16 * (icoEntries (fun s => [s % 256, 0]) 64 48).length
        + ((icoEntries (fun s => [s % 256, 0]) 64 48).map fun e => e.buffer.length).sum :=
  claimC6_header (fun s => [s % 256, 0]) 64 48 (by decide) (by decide)

/-- Claim C8: the NoEligibleSizes branch of `generateIcoBlob` is
unreachable for every input (for dimensions at least 16×16 the eligible
set contains 16, and smaller dimensions are stopped by the ImageTooSmall
check first); without that check the emptiness condition would hold, for
example at 15×15, where the eligible size list is empty. -/
theorem claimC8_noEligibleUnreachable :
    (∀ (png : Nat → List Nat) (w h : Nat),
        generateIcoBlob png w h ≠ Except.error noEligibleSizesMsg)
      ∧ eligibleSizes 15 15 = [] := by
  constructor
  · intro png w h hcontra
    by_cases hsm : w < 16 ∨ h < 16
    · rw [generateIcoBlob_small png w h hsm] at hcontra
      have hmsg : imageTooSmallMsg = noEligibleSizesMsg := by injection hcontra
      exact absurd hmsg (by decide)
    · rw [generateIcoBlob_ok png w h (by omega) (by omega)] at hcontra
      exact Except.noConfusion hcontra
  · rfl

theorem claimC8_witness :
    generateIcoBlob (fun _ => []) 32 32 ≠ Except.error noEligibleSizesMsg :=
  claimC8_noEligibleUnreachable.1 (fun _ => []) 32 32

lemma eligibleSizes_getD_mem (w h i : Nat) (hi : i < (eligibleSizes w h).length) :
    (eligibleSizes w h).getD i 0 ∈ standardSizes := by
  apply eligibleSizes_subset_standard w h
  rw [List.getD_eq_getElem _ _ hi]
  exact List.getElem_mem hi

lemma prefixLen_succ (es : List ImageEntry) (i : Nat) (hi : i < es.length) :
    prefixLen es (i + 1) = prefixLen es i + (es.getD i default).buffer.length := by
  induction es generalizing i with
  | nil => simp at hi
  | cons e rest ih =>
    cases i with
    | zero => simp [prefixLen_cons_succ, prefixLen_zero]
    | succ i' =>
      rw [prefixLen_cons_succ, prefixLen_cons_succ, ih i' (by simpa using hi),
        List.getD_cons_succ]
      omega

lemma dataOffset_noWrap (es : List ImageEntry) (i : Nat)
    (hsm : totalLen es < 4294967296) :
    (6 + 16 * es.length + prefixLen es i) % 4294967296
      = 6 + 16 * es.length + prefixLen es i := by
  apply Nat.mod_eq_of_lt
  have := prefixLen_le_sum es i
  unfold totalLen at hsm
  omega

lemma dataSize_noWrap (es : List ImageEntry) (i : Nat) (hi : i < es.length)
    (hsm : totalLen es < 4294967296) :
    (es.getD i default).buffer.length % 4294967296 = (es.getD i default).buffer.length := by
  apply Nat.mod_eq_of_lt
  have := getD_buffer_le_sum es i hi
  unfold totalLen at hsm
  omega

lemma parsed_sizes_eq (png : Nat → List Nat) (w h : Nat) :
    (parseDirectory (icoBytes (icoEntries png w h))).map
        (fun ent => decodeSizeByte ent.widthByte)
      = eligibleSizes w h := by
  have hn := icoEntries_length_lt png w h
  rw [parseDirectory_icoBytes _ hn, List.map_map]
  apply List.ext_getElem
  · simp [icoEntries_length]
  · intro i h1 h2
    have hi : i < (eligibleSizes w h).length := h2
    simp only [List.getElem_map, List.getElem_range, Function.comp_apply]
    have hspec : (specEntry (icoEntries png w h) i).widthByte
        = u8 (displaySize ((eligibleSizes w h).getD i 0)) := by
      rw [specEntry, icoEntries_getD png w h i hi]
    rw [hspec, decodeSizeByte_u8_displaySize (eligibleSizes_getD_mem w h i hi),
      List.getD_eq_getElem _ _ hi]

/-- Claim C5: in every produced container, each directory entry carries
the selected size in both single-byte dimension fields (with 256 encoded
as 0), zero palette and reserved bytes, zero uint16 color-planes and
bits-per-pixel fields, and its uint32 data-size field equals the byte
length of that entry's encoded PNG buffer. -/
theorem claimC5_entryLayout (png : Nat → List Nat) (w h : Nat) (hw : 16 ≤ w) (hh : 16 ≤ h)
    (hpng : ∀ s, (png s).length < 4294967296) :
    ∃ buf, generateIcoBlob png w h = Except.ok buf ∧
      ∀ i, i < (parseDirectory buf).length →
        ((parseDirectory buf).getD i default).widthByte
            = (if (eligibleSizes w h).getD i 0 = 256 then 0 else (eligibleSizes w h).getD i 0) ∧
        ((parseDirectory buf).getD i default).heightByte
            = (if (eligibleSizes w h).getD i 0 = 256 then 0 else (eligibleSizes w h).getD i 0) ∧
        ((parseDirectory buf).getD i default).paletteCount = 0 ∧
        ((parseDirectory buf).getD i default).reservedByte = 0 ∧
        ((parseDirectory buf).getD i default).colorPlanes = 0 ∧
        ((parseDirectory buf).getD i default).bitsPerPixel = 0 ∧
        ((parseDirectory buf).getD i default).dataSize
            = (png ((eligibleSizes w h).getD i 0)).length := by
  refine ⟨_, generateIcoBlob_ok png w h hw hh, ?_⟩
  intro i hi
  have hn := icoEntries_length_lt png w h
  rw [parseDirectory_icoBytes_length _ hn, icoEntries_length] at hi
  rw [parseDirectory_icoBytes_getD _ hn i (by rw [icoEntries_length]; exact hi)]
  have hmem := eligibleSizes_getD_mem w h i hi
  simp only [specEntry, icoEntries_getD png w h i hi]
  refine ⟨u8_displaySize_of_mem hmem, u8_displaySize_of_mem hmem, ?_, ?_, ?_, ?_,
    Nat.mod_eq_of_lt (hpng _)⟩ <;> trivial

theorem claimC5_witness :
    ∃ buf, generateIcoBlob (fun s => [s % 256, 1]) 400 400 = Except.ok buf ∧
      ∀ i, i < (parseDirectory buf).length →
        ((parseDirectory buf).getD i default).widthByte
            = (if (eligibleSizes 400 400).getD i 0 = 256 then 0
               else (eligibleSizes 400 400).getD i 0) ∧
        ((parseDirectory buf).getD i default).heightByte
            = (if (eligibleSizes 400 400).getD i 0 = 256 then 0
               else (eligibleSizes 400 400).getD i 0) ∧
        ((parseDirectory buf).getD i default).paletteCount = 0 ∧
        ((parseDirectory buf).getD i default).reservedByte = 0 ∧
        ((parseDirectory buf).getD i default).colorPlanes = 0 ∧
        ((parseDirectory buf).getD i default).bitsPerPixel = 0 ∧
        ((parseDirectory buf).getD i default).dataSize
            = ((fun s => [s % 256, 1]) ((eligibleSizes 400 400).getD i 0)).length :=
  claimC5_entryLayout (fun s => [s % 256, 1]) 400 400 (by decide) (by decide)
    (fun s => by simp)

/-- Claim C4: in every produced container, the first directory entry's
data offset is `6 + 16 * N`, and each subsequent entry's data offset is
the previous entry's offset plus the previous entry's data size. -/
theorem claimC4_offsets (png : Nat → List Nat) (w h : Nat) (hw : 16 ≤ w) (hh : 16 ≤ h)
    (hsmall : totalLen (icoEntries png w h) < 4294967296) :
    ∃ buf, generateIcoBlob png w h = Except.ok buf ∧
      0 < (parseDirectory buf).length ∧
      ((parseDirectory buf).getD 0 default).dataOffset
        = 6 + 16 * (parseDirectory buf).length ∧
      ∀ i, i + 1 < (parseDirectory buf).length →
        ((parseDirectory buf).getD (i + 1) default).dataOffset
          = ((parseDirectory buf).getD i default).dataOffset
            + ((parseDirectory buf).getD i default).dataSize := by
  refine ⟨_, generateIcoBlob_ok png w h hw hh, ?_, ?_, ?_⟩
  all_goals have hn := icoEntries_length_lt png w h
  all_goals rw [parseDirectory_icoBytes_length _ hn]
  · rw [icoEntries_length]
    have := List.length_pos.mpr (eligibleSizes_ne_nil hw hh)
    omega
  · have hpos : 0 < (icoEntries png w h).length := by
      rw [icoEntries_length]
      exact List.length_pos.mpr (eligibleSizes_ne_nil hw hh)
    rw [parseDirectory_icoBytes_getD _ hn 0 hpos]
    simp only [specEntry]
    rw [dataOffset_noWrap _ 0 hsmall, prefixLen_zero]
    omega
  · intro i hi
    rw [parseDirectory_icoBytes_getD _ hn (i + 1) hi,
      parseDirectory_icoBytes_getD _ hn i (by omega)]
    simp only [specEntry]
    rw [dataOffset_noWrap _ (i + 1) hsmall, dataOffset_noWrap _ i hsmall,
      dataSize_noWrap _ i (by omega) hsmall, prefixLen_succ _ i (by omega)]
    omega

theorem claimC4_witness :
    ∃ buf, generateIcoBlob (fun s => [s % 256, 1]) 40 40 = Except.ok buf ∧
      0 < (parseDirectory buf).length ∧
      ((parseDirectory buf).getD 0 default).dataOffset
        = 6 + 16 * (parseDirectory buf).length ∧
      ∀ i, i + 1 < (parseDirectory buf).length →
        ((parseDirectory buf).getD (i + 1) default).dataOffset
          = ((parseDirectory buf).getD i default).dataOffset
            + ((parseDirectory buf).getD i default).dataSize :=
  claimC4_offsets (fun s => [s % 256, 1]) 40 40 (by decide) (by decide) (by decide)

/-- Claim C3: parsing a produced container recovers exactly the selected
sizes in descending order, and each entry's data offset and data size
slice the container back into the PNG buffer encoded for that size. -/
theorem claimC3_roundTrip (png : Nat → List Nat) (w h : Nat) (hw : 16 ≤ w) (hh : 16 ≤ h)
    (hsmall : totalLen (icoEntries png w h) < 4294967296) :
    ∃ buf, generateIcoBlob png w h = Except.ok buf ∧
      (parseDirectory buf).map (fun ent => decodeSizeByte ent.widthByte) = eligibleSizes w h ∧
      ((parseDirectory buf).map fun ent => decodeSizeByte ent.widthByte).Pairwise
        (fun a b => a > b) ∧
      ∀ i, i < (parseDirectory buf).length →
        (buf.drop ((parseDirectory buf).getD i default).dataOffset).take
            ((parseDirectory buf).getD i default).dataSize
          = png ((eligibleSizes w h).getD i 0) := by
  refine ⟨_, generateIcoBlob_ok png w h hw hh, parsed_sizes_eq png w h, ?_, ?_⟩
  · rw [parsed_sizes_eq png w h]
    exact eligibleSizes_pairwise_gt w h
  · intro i hi
    have hn := icoEntries_length_lt png w h
    rw [parseDirectory_icoBytes_length _ hn] at hi
    rw [parseDirectory_icoBytes_getD _ hn i hi]
    simp only [specEntry]
    rw [dataOffset_noWrap _ i hsmall, dataSize_noWrap _ i hi hsmall]
    have hsplit : icoBytes (icoEntries png w h)
        = (icoHeader (icoEntries png w h).length
            ++ mkDirectory (icoEntries png w h) (6 + 16 * (icoEntries png w h).length))
          ++ ((icoEntries png w h).map ImageEntry.buffer).flatten := by
      simp [icoBytes]
    have hlen : (icoHeader (icoEntries png w h).length
        ++ mkDirectory (icoEntries png w h) (6 + 16 * (icoEntries png w h).length)).length
          = 6 + 16 * (icoEntries png w h).length := by
      rw [List.length_append, icoHeader_length, mkDirectory_length]
    have hoff : 6 + 16 * (icoEntries png w h).length + prefixLen (icoEntries png w h) i
        = (icoHeader (icoEntries png w h).length
            ++ mkDirectory (icoEntries png w h)
              (6 + 16 * (icoEntries png w h).length)).length
          + prefixLen (icoEntries png w h) i := by rw [hlen]
    rw [hsplit, hoff, List.drop_append, flatten_slice _ i hi]
    have hie : i < (eligibleSizes w h).length := by rwa [icoEntries_length] at hi
    rw [icoEntries_getD png w h i hie]

theorem claimC3_witness :
    ∃ buf, generateIcoBlob (fun s => [s % 256, 2, 3]) 130 200 = Except.ok buf ∧
      (parseDirectory buf).map (fun ent => decodeSizeByte ent.widthByte)
        = eligibleSizes 130 200 ∧
      ((parseDirectory buf).map fun ent => decodeSizeByte ent.widthByte).Pairwise
        (fun a b => a > b) ∧
      ∀ i, i < (parseDirectory buf).length →
        (buf.drop ((parseDirectory buf).getD i default).dataOffset).take
            ((parseDirectory buf).getD i default).dataSize
          = (fun s => [s % 256, 2, 3]) ((eligibleSizes 130 200).getD i 0) :=
  claimC3_roundTrip (fun s => [s % 256, 2, 3]) 130 200 (by decide) (by decide) (by decide)

/-- Claim C10: on every successful run the selected size list is a
contiguous suffix of `[256,128,64,48,32,16]`, the produced container's
last entry is the 16×16 one, and the image count is between 1 and 6. -/
theorem claimC10_suffixShape (png : Nat → List Nat) (w h : Nat) (hw : 16 ≤ w) (hh : 16 ≤ h) :
    ∃ buf, generateIcoBlob png w h = Except.ok buf ∧
      List.IsSuffix (eligibleSizes w h) standardSizes ∧
      (eligibleSizes w h).getLast? = some 16 ∧
      1 ≤ readU16 buf 4 ∧ readU16 buf 4 ≤ 6 ∧
      ((parseDirectory buf).map fun ent => decodeSizeByte ent.widthByte).getLast?
        = some 16 := by
  refine ⟨_, generateIcoBlob_ok png w h hw hh, eligibleSizes_isSuffix w h,
    eligibleSizes_getLast? hw hh, ?_, ?_, ?_⟩
  · rw [readU16_icoBytes_count _ (icoEntries_length_lt png w h), icoEntries_length]
    exact List.length_pos.mpr (eligibleSizes_ne_nil hw hh)
  · rw [readU16_icoBytes_count _ (icoEntries_length_lt png w h), icoEntries_length]
    exact eligibleSizes_length_le w h
  · rw [parsed_sizes_eq png w h]
    exact eligibleSizes_getLast? hw hh

theorem claimC10_witness :
    ∃ buf, generateIcoBlob (fun _ => [5]) 100 500 = Except.ok buf ∧
      List.IsSuffix (eligibleSizes 100 500) standardSizes ∧
      (eligibleSizes 100 500).getLast? = some 16 ∧
      1 ≤ readU16 buf 4 ∧ readU16 buf 4 ≤ 6 ∧
      ((parseDirectory buf).map fun ent => decodeSizeByte ent.widthByte).getLast?
        = some 16 :=
  claimC10_suffixShape (fun _ => [5]) 100 500 (by decide) (by decide)

/-- Claim C7: the resample-and-encode operation always produces a square
output of exactly targetSize × targetSize regardless of the source's
aspect ratio, fails exactly when the requested size is non-positive
(InvalidDimension), and its success or failure never depends on the
source raster — so never on aspect-ratio mismatch or upscaling. -/
theorem claimC7_square (draw : SourceImage → Nat → Nat → List Nat) (img : SourceImage)
    (size : Int) :
    (0 < size → ∃ p, generatePngBlob draw img size = Except.ok p ∧
        p.width = size.toNat ∧ p.height = size.toNat) ∧
    (size ≤ 0 → generatePngBlob draw img size = Except.error invalidDimensionMsg) ∧
    (∀ img' : SourceImage,
        (generatePngBlob draw img size).isOk = (generatePngBlob draw img' size).isOk) := by
  refine ⟨?_, ?_, ?_⟩
  · intro hpos
    rw [generatePngBlob, if_neg (by omega)]
    exact ⟨_, rfl, rfl, rfl⟩
  · intro hle
    rw [generatePngBlob, if_pos hle]
  · intro img'
    by_cases hle : size ≤ 0
    · rw [generatePngBlob, generatePngBlob, if_pos hle, if_pos hle]
    · rw [generatePngBlob, generatePngBlob, if_neg hle, if_neg hle]
      rfl

theorem claimC7_witness :
    ∃ p, generatePngBlob (fun _ dw dh => [dw % 256, dh % 256]) ⟨100, 50⟩ 192
        = Except.ok p ∧
      p.width = (192 : Int).toNat ∧ p.height = (192 : Int).toNat :=
  (claimC7_square (fun _ dw dh => [dw % 256, dh % 256]) ⟨100, 50⟩ 192).1 (by decide)

/-- Claim C9: every selected file whose declared content type is not
image/png is rejected with the InvalidFileType validation error at the
boundary, and the outcome is independent of the conversion pipeline, so
no decoding, resampling, encoding or packaging runs for that input. -/
theorem claimC9_invalidType {α : Type} (convert : FileInput → α) (file : FileInput)
    (hty : file.type ≠ "image/png") :
    handleFileSelect convert file = SelectOutcome.rejected invalidFileTypeMsg ∧
    ∀ convert' : FileInput → α,
      handleFileSelect convert' file = handleFileSelect convert file := by
  constructor
  · rw [handleFileSelect, if_pos hty]
  · intro convert'
    rw [handleFileSelect, handleFileSelect, if_pos hty, if_pos hty]

theorem claimC9_witness :
    handleFileSelect (fun _ => (0 : Nat)) ⟨"image/jpeg"⟩
        = SelectOutcome.rejected invalidFileTypeMsg ∧
    ∀ convert' : FileInput → Nat,
      handleFileSelect convert' ⟨"image/jpeg"⟩
        = handleFileSelect (fun _ => (0 : Nat)) ⟨"image/jpeg"⟩ :=
  claimC9_invalidType (fun _ => 0) ⟨"image/jpeg"⟩ (by decide)

theorem sanity_ico_20 :
    generateIcoBlob (fun _ => [9, 9, 9]) 20 20 =
      Except.ok ([0, 0, 1, 0, 1, 0]
        ++ [16, 16, 0, 0, 0, 0, 0, 0, 3, 0, 0, 0, 22, 0, 0, 0]
        ++ [9, 9, 9]) := by
  rfl

theorem sanity_parse_20 :
    parseDirectory ([0, 0, 1, 0, 1, 0]
        ++ [16, 16, 0, 0, 0, 0, 0, 0, 3, 0, 0, 0, 22, 0, 0, 0]
        ++ [9, 9, 9]) = [⟨16, 16, 0, 0, 0, 0, 3, 22⟩] := by
  decide

end PwaGen
